import Mathlib

/-!
Verification of the convergence-and-safety controller of the ESLint repair
scripts (eslint-helper.py and eslint-automation.py).

File contents are modelled as lists of characters.  The regular-expression
rewrites of the source use only patterns whose repetitions (star and plus of a
character class) are always followed by a character outside the repeated
class, so greedy maximal-munch matching coincides with Python regex
semantics; the matcher below implements exactly that discipline.

Braces and apostrophes inside string literals are written with their hex
escapes.
-/

set_option autoImplicit false

abbrev Str := List Char

/-- Python's str whitespace class, restricted to ASCII. -/
def isSpaceChar (c : Char) : Bool :=
  c = ' ' || c = '\t' || c = '\n' || c = '\r' || c = '\x0b' || c = '\x0c'

/-- Python's regex word class, restricted to ASCII. -/
def isWordChar (c : Char) : Bool :=
  c.isAlphanum || c = '_'

/-- Substring test: Python's "needle in haystack" on strings. -/
def strHas (hay nd : Str) : Bool :=
  (List.range (hay.length + 1)).any fun i => nd.isPrefixOf (hay.drop i)

/-- Python's str.strip. -/
def pyStrip (s : Str) : Str :=
  ((s.dropWhile isSpaceChar).reverse.dropWhile isSpaceChar).reverse

/-- Python's str.replace: replace every non-overlapping occurrence, left to
right.  Fuel-driven; fuel is instantiated with the length of the string. -/
def replAllGo (nd rp : Str) : Nat → Str → Str
  | _, [] => []
  | 0, s => s
  | fuel+1, c :: cs =>
      if nd ≠ [] ∧ nd.isPrefixOf (c :: cs) then
        rp ++ replAllGo nd rp fuel ((c :: cs).drop nd.length)
      else
        c :: replAllGo nd rp fuel cs

def replAll (nd rp s : Str) : Str :=
  replAllGo nd rp s.length s

/-- Character classes occurring in the source's patterns. -/
inductive CClass where
  | lit (c : Char)
  | nset (cs : List Char)
  | word
  | space

def CClass.mat : CClass → Char → Bool
  | .lit c, d => d = c
  | .nset cs, d => ¬ cs.contains d
  | .word, d => isWordChar d
  | .space, d => isSpaceChar d

/-- Pattern items: a single class, greedy star / plus of a class, capture
group delimiters, and a word boundary. -/
inductive RItem where
  | ch (cc : CClass)
  | star (cc : CClass)
  | plus (cc : CClass)
  | gstart
  | gend
  | bnd

/-- A sequence of literal items from a string. -/
def lits (s : String) : List RItem :=
  s.data.map fun c => RItem.ch (CClass.lit c)

/-- Anchored match of a pattern at the head of the input.  Returns the
matched text, the text of the single capture group, and the rest of the
input.  `prev` is the character consumed immediately before the current
position (used by the word boundary), `ing` records whether we are inside
the capture group. -/
def matchAt : List RItem → Str → Option Char → Bool →
    Option (Str × Str × Str)
  | [], s, _, _ => some ([], [], s)
  | .gstart :: ps, s, prev, _ => matchAt ps s prev true
  | .gend :: ps, s, prev, _ => matchAt ps s prev false
  | .bnd :: ps, s, prev, ing =>
      let pw := match prev with | some c => isWordChar c | none => false
      let nw := match s with | c :: _ => isWordChar c | [] => false
      if pw ≠ nw then matchAt ps s prev ing else none
  | .ch _ :: _, [], _, _ => none
  | .ch cc :: ps, c :: s, _, ing =>
      if cc.mat c then
        (matchAt ps s (some c) ing).map fun r =>
          (c :: r.1, if ing then c :: r.2.1 else r.2.1, r.2.2)
      else none
  | .star cc :: ps, s, prev, ing =>
      (matchAt ps (s.drop (s.takeWhile cc.mat).length)
          ((s.takeWhile cc.mat).reverse.head?.orElse fun _ => prev) ing).map
        fun r =>
          ((s.takeWhile cc.mat) ++ r.1,
           if ing then (s.takeWhile cc.mat) ++ r.2.1 else r.2.1, r.2.2)
  | .plus cc :: ps, s, prev, ing =>
      if (s.takeWhile cc.mat).isEmpty then none
      else
        (matchAt ps (s.drop (s.takeWhile cc.mat).length)
            ((s.takeWhile cc.mat).reverse.head?.orElse fun _ => prev) ing).map
          fun r =>
            ((s.takeWhile cc.mat) ++ r.1,
             if ing then (s.takeWhile cc.mat) ++ r.2.1 else r.2.1, r.2.2)

/-- re.sub: scan left to right, replacing each non-overlapping match by the
replacement computed from the matched text and the capture group. -/
def gsubGo (p : List RItem) (rep : Str → Str → Str) : Nat → Str → Str
  | _, [] => []
  | 0, s => s
  | fuel+1, c :: cs =>
      match matchAt p (c :: cs) none false with
      | some (g0, g1, rest) =>
          if g0.isEmpty then c :: gsubGo p rep fuel cs
          else rep g0 g1 ++ gsubGo p rep fuel rest
      | none => c :: gsubGo p rep fuel cs

def gsub (p : List RItem) (rep : Str → Str → Str) (s : Str) : Str :=
  gsubGo p rep s.length s

/-- re.finditer: the list of (matched text, capture group) of all
non-overlapping matches, left to right. -/
def findAllGo (p : List RItem) : Nat → Str → List (Str × Str)
  | _, [] => []
  | 0, _ => []
  | fuel+1, c :: cs =>
      match matchAt p (c :: cs) none false with
      | some (g0, g1, rest) =>
          if g0.isEmpty then findAllGo p fuel cs
          else (g0, g1) :: findAllGo p fuel rest
      | none => findAllGo p fuel cs

def findAll (p : List RItem) (s : Str) : List (Str × Str) :=
  findAllGo p s.length s

/-- Python readlines: split after every newline, keeping the newline on each
line; a final fragment without newline forms a last line. -/
def splitKeepNlGo : Str → Str → List Str
  | [], acc => if acc = [] then [] else [acc.reverse]
  | c :: cs, acc =>
      if c = '\n' then (acc.reverse ++ ['\n']) :: splitKeepNlGo cs []
      else splitKeepNlGo cs (c :: acc)

def splitKeepNl (s : Str) : List Str :=
  splitKeepNlGo s []

/-- Python str.split of a single newline separator. -/
def splitOnNlGo : Str → Str → List Str
  | [], acc => [acc.reverse]
  | c :: cs, acc =>
      if c = '\n' then acc.reverse :: splitOnNlGo cs []
      else splitOnNlGo cs (c :: acc)

def splitOnNl (s : Str) : List Str :=
  splitOnNlGo s []

/-- Python '\n'.join. -/
def joinNl (ls : List Str) : Str :=
  List.intercalate ['\n'] ls

theorem splitKeepNlGo_join : ∀ (s acc : Str),
    (splitKeepNlGo s acc).flatten = acc.reverse ++ s := by
  intro s
  induction s with
  | nil =>
      intro acc
      by_cases h : acc = [] <;> simp [splitKeepNlGo, h]
  | cons c cs ih =>
      intro acc
      by_cases h : c = '\n'
      · subst h
        simp [splitKeepNlGo, ih []]
      · simp [splitKeepNlGo, h, ih (c :: acc)]

theorem splitKeepNl_join (s : Str) : (splitKeepNl s).flatten = s := by
  simpa using splitKeepNlGo_join s []

/-- Folding a step that fixes the accumulator leaves the accumulator fixed. -/
theorem foldl_fixed {α β : Type} (f : α → β → α) (c : α) :
    ∀ (rs : List β), (∀ r ∈ rs, f c r = c) → rs.foldl f c = c
  | [], _ => rfl
  | r :: rs, h => by
      have h1 : f c r = c := h r (List.mem_cons_self r rs)
      rw [List.foldl_cons, h1]
      exact foldl_fixed f c rs fun x hx => h x (List.mem_cons_of_mem r hx)

/-! ## eslint-helper.py: data model and rewrite engine -/

/-- The ESLintError class of eslint-helper.py. -/
structure ESLintError where
  file_path : Str
  line : Int
  column : Int
  message : Str
  rule : Str
deriving DecidableEq

/-- Message fragments the source dispatches on. -/
def msgParsing : Str := "Parsing error".data

def msgArrowExpected : Str := "\x27=>\x27 expected".data

def msgBraceSemiExpected : Str := "\x27\x7b\x27 or \x27;\x27 expected".data

def msgGtExpected : Str := "\x27>\x27 expected".data

def msgIdentExpected : Str := "Identifier expected".data

def msgDeclExpected : Str := "Declaration or statement expected".data

/-- One (pattern, replacement) entry of the self.parsing_fixes table. -/
structure Rule where
  pat : List RItem
  rep : Str → Str → Str

/-- Pattern of the first parsing fix and of the line-targeted Promise fix. -/
def pPromiseArrow : List RItem :=
  lits "): Promise<" ++
    [RItem.gstart, RItem.plus (CClass.nset ['>']), RItem.gend,
     RItem.ch (CClass.lit '>'), RItem.star CClass.space] ++
    lits "=>" ++ [RItem.star CClass.space, RItem.ch (CClass.lit '\x7b')]

def pPromiseEmptyArrow : List RItem :=
  lits "): Promise<" ++ [RItem.star CClass.space] ++ lits "=>" ++
    [RItem.star CClass.space, RItem.ch (CClass.lit '\x7b')]

def pBraceGtArrow : List RItem :=
  [RItem.ch (CClass.lit '\x7d'), RItem.star CClass.space,
   RItem.ch (CClass.lit '>'), RItem.star CClass.space] ++
    lits "=>" ++ [RItem.star CClass.space, RItem.ch (CClass.lit '\x7b')]

def pAsyncWord : List RItem :=
  lits "async " ++ [RItem.gstart, RItem.plus CClass.word, RItem.gend] ++
    lits " \x7b"

/-- The self.parsing_fixes table (eslint-helper.py, lines 33 to 51), in
source order. -/
def parsing_fixes : List Rule :=
  [ ⟨pPromiseArrow, fun _ g1 => "): Promise<".data ++ g1 ++ "> \x7b".data⟩,
    ⟨pPromiseEmptyArrow, fun _ _ => "): Promise<\x7b".data⟩,
    ⟨pBraceGtArrow, fun _ _ => "\x7d> \x7b".data⟩,
    ⟨pAsyncWord, fun _ g1 => "async ".data ++ g1 ++ " => \x7b".data⟩,
    ⟨lits "async () \x7b", fun _ _ => "async () => \x7b".data⟩,
    ⟨lits "response: async () \x7b",
      fun _ _ => "response: async () => \x7b".data⟩,
    ⟨lits "\x7d catch () \x7b", fun _ _ => "\x7d catch (error) \x7b".data⟩,
    ⟨lits "catch () \x7b", fun _ _ => "catch (error) \x7b".data⟩,
    ⟨lits "): Promise< =>", fun _ _ => "): Promise<\x7b".data⟩,
    ⟨lits "Promise<= =>", fun _ _ => "Promise<\x7b".data⟩ ]

/-- Pattern of the message-targeted async-paren fix. -/
def pAsyncParen : List RItem :=
  lits "async (" ++ [RItem.star (CClass.nset [')'])] ++ lits ") \x7b"

/-- The message-targeted per-line fixes of apply_parsing_fixes
(eslint-helper.py, lines 146 to 165). -/
def lineFix (msg line : Str) : Str :=
  if strHas msg msgArrowExpected then
    if strHas line "async (".data ∧ strHas line " \x7b".data then
      gsub pAsyncParen (fun g0 _ => replAll " \x7b".data " => \x7b".data g0)
        line
    else if strHas line "response: async ()".data ∧
        strHas line " \x7b".data then
      gsub (lits "response: async () \x7b")
        (fun _ _ => "response: async () => \x7b".data) line
    else line
  else if strHas msg msgBraceSemiExpected then
    if strHas line "): Promise<".data ∧ strHas line " => \x7b".data then
      gsub pPromiseArrow
        (fun _ g1 => "): Promise<".data ++ g1 ++ "> \x7b".data) line
    else line
  else if strHas msg msgIdentExpected then line
  else if strHas msg msgDeclExpected then line
  else line

/-- Python list read with negative-index semantics; out of range raises. -/
def pyGet (l : List Str) (i : Int) : Except Unit Str :=
  if 0 ≤ i then
    match l.get? i.toNat with
    | some x => Except.ok x
    | none => Except.error ()
  else if 0 ≤ i + l.length then
    match l.get? (i + l.length).toNat with
    | some x => Except.ok x
    | none => Except.error ()
  else Except.error ()

/-- Python list write with negative-index semantics; out of range raises. -/
def pySet (l : List Str) (i : Int) (x : Str) : Except Unit (List Str) :=
  if 0 ≤ i then
    if i < (l.length : Int) then Except.ok (l.set i.toNat x)
    else Except.error ()
  else if 0 ≤ i + l.length then Except.ok (l.set (i + l.length).toNat x)
  else Except.error ()

/-- One step of the per-error loop of apply_parsing_fixes (lines 135 to
171): skip non-parsing errors, skip line indices at or past the end, apply
the message-targeted fix and record whether a line changed. -/
def lineStep (st : List Str × Bool) (e : ESLintError) :
    Except Unit (List Str × Bool) :=
  if strHas e.message msgParsing = false then Except.ok st
  else if (st.1.length : Int) ≤ e.line - 1 then Except.ok st
  else
    match pyGet st.1 (e.line - 1) with
    | Except.error u => Except.error u
    | Except.ok lc =>
        if lineFix e.message lc ≠ lc then
          match pySet st.1 (e.line - 1) (lineFix e.message lc) with
          | Except.error u => Except.error u
          | Except.ok ls => Except.ok (ls, true)
        else Except.ok st

def lineFixes (errors : List ESLintError) (lines : List Str) :
    Except Unit (List Str × Bool) :=
  errors.foldlM lineStep (lines, false)

/-- One step of the general parsing-fixes loop (lines 175 to 179). -/
def genStep (st : Str × Bool) (r : Rule) : Str × Bool :=
  if gsub r.pat r.rep st.1 ≠ st.1 then (gsub r.pat r.rep st.1, true) else st

/-- Result of one call of a rewrite function: the on-disk file content
afterwards, the returned boolean, and how many file writes occurred. -/
structure ApplyResult where
  content : Str
  ret : Bool
  writes : Nat
deriving DecidableEq

/-- ESLintHelper.apply_parsing_fixes (eslint-helper.py, lines 125 to 191):
read the file as lines, run the message-targeted per-line fixes, then the
general parsing_fixes table on the joined content, and write the file back
only when something changed.  Any exception is caught and reported as
False with no write. -/
def apply_parsing_fixes (errors : List ESLintError) (content : Str) :
    ApplyResult :=
  match lineFixes errors (splitKeepNl content) with
  | Except.error _ => ⟨content, false, 0⟩
  | Except.ok (ls, ch) =>
      if (parsing_fixes.foldl genStep (ls.flatten, ch)).2 then
        ⟨(parsing_fixes.foldl genStep (ls.flatten, ch)).1, true, 1⟩
      else ⟨content, false, 0⟩

/-! ## Convergence Controller: ESLintHelper.clean_file_automatically

The controller is modelled over an environment supplying the Diagnostic
Adapter (a deterministic function from file content to the diagnostic
list, as get_file_errors never raises) and the Rewrite Engine (an
arbitrary rule table, as the spec quantifies over rule tables).  An event
trace records every adapter invocation, backup creation, rewrite call,
file write, backup restore and backup removal. -/

structure Env where
  errs : Str → List ESLintError
  fix : Str → List ESLintError → Str × Bool

/-- Observable session events. -/
inductive Ev where
  | measure
  | backupEv
  | fixEv
  | writeEv
  | restoreEv
  | removeEv
deriving DecidableEq

/-- Outcome of one repair session. -/
structure SessionResult where
  initialCount : Nat
  finalCount : Nat
  content : Str
  trace : List Ev
  iterations : Nat
  reverted : Bool
deriving DecidableEq

/-- self.max_iterations (eslint-helper.py, line 30). -/
def maxIterations : Nat := 20

/-- The epilogue after the while loop (lines 292 to 309): re-measure the
file, remove the backup, return (initial_error_count, final_error_count). -/
def sessionFinish (env : Env) (ic : Nat) (c : Str) (tr : List Ev) (it : Nat) :
    SessionResult :=
  ⟨ic, (env.errs c).length, c, tr ++ [Ev.measure, Ev.removeEv], it, false⟩

/-- restore_backup then an immediate return of (initial, initial)
(lines 261 to 266 and 286 to 290). -/
def sessionRevert (ic : Nat) (snap : Str) (tr : List Ev) (it : Nat) :
    SessionResult :=
  ⟨ic, ic, snap, tr ++ [Ev.restoreEv], it, true⟩

/-- The while loop of clean_file_automatically (lines 249 to 290).  The
fuel argument is the remaining iteration budget
max_iterations - iteration. -/
def sessionLoop (env : Env) (ic : Nat) (snap : Str) :
    Nat → Str → List Ev → Nat → SessionResult
  | 0, c, tr, it => sessionFinish env ic c tr it
  | fuel+1, c, tr, it =>
      if (env.errs c).length = 0 then
        sessionFinish env ic c (tr ++ [Ev.measure]) (it+1)
      else if ic < (env.errs c).length then
        sessionRevert ic snap (tr ++ [Ev.measure]) (it+1)
      else if (env.fix c (env.errs c)).2 = false then
        sessionFinish env ic c (tr ++ [Ev.measure, Ev.fixEv]) (it+1)
      else if (env.errs c).length <
          (env.errs (env.fix c (env.errs c)).1).length then
        sessionRevert ic snap
          (tr ++ [Ev.measure, Ev.fixEv, Ev.writeEv, Ev.measure]) (it+1)
      else
        sessionLoop env ic snap fuel (env.fix c (env.errs c)).1
          (tr ++ [Ev.measure, Ev.fixEv, Ev.writeEv, Ev.measure]) (it+1)

/-- ESLintHelper.clean_file_automatically (eslint-helper.py, lines 229 to
317): measure, return (0, 0) untouched when already clean, otherwise
create the backup once and run the iteration loop. -/
def clean_file_automatically (env : Env) (content : Str) : SessionResult :=
  if (env.errs content).length = 0 then
    ⟨0, 0, content, [Ev.measure], 0, false⟩
  else
    sessionLoop env ((env.errs content).length) content maxIterations
      content [Ev.measure, Ev.backupEv] 0

/-! ## Controller lemmas -/

theorem sessionLoop_counts (env : Env) (ic : Nat) (snap : Str)
    (hs : (env.errs snap).length = ic) :
    ∀ (fuel : Nat) (c : Str) (tr : List Ev) (it : Nat),
      (env.errs c).length ≤ ic →
      (sessionLoop env ic snap fuel c tr it).finalCount ≤ ic ∧
      (env.errs (sessionLoop env ic snap fuel c tr it).content).length ≤ ic ∧
      (sessionLoop env ic snap fuel c tr it).initialCount = ic := by
  intro fuel
  induction fuel with
  | zero =>
      intro c tr it hc
      exact ⟨hc, hc, rfl⟩
  | succ n ih =>
      intro c tr it hc
      simp only [sessionLoop]
      split_ifs with h1 h2 h3 h4
      · exact ⟨hc, hc, rfl⟩
      · exact ⟨le_refl ic, le_of_eq hs, rfl⟩
      · exact ⟨hc, hc, rfl⟩
      · exact ⟨le_refl ic, le_of_eq hs, rfl⟩
      · exact ih _ _ _ (le_trans (le_of_not_lt h4) hc)

theorem sessionLoop_iter_bound (env : Env) (ic : Nat) (snap : Str) :
    ∀ (fuel : Nat) (c : Str) (tr : List Ev) (it : Nat),
      (sessionLoop env ic snap fuel c tr it).iterations ≤ it + fuel := by
  intro fuel
  induction fuel with
  | zero =>
      intro c tr it
      simp [sessionLoop, sessionFinish]
  | succ n ih =>
      intro c tr it
      simp only [sessionLoop]
      split_ifs <;>
        first
          | simp only [sessionFinish, sessionRevert]; omega
          | exact le_trans (ih _ _ _) (by omega)

theorem sessionLoop_revert (env : Env) (ic : Nat) (snap : Str) :
    ∀ (fuel : Nat) (c : Str) (tr : List Ev) (it : Nat),
      (sessionLoop env ic snap fuel c tr it).reverted = true →
      (sessionLoop env ic snap fuel c tr it).content = snap ∧
      (sessionLoop env ic snap fuel c tr it).finalCount = ic ∧
      (sessionLoop env ic snap fuel c tr it).initialCount = ic := by
  intro fuel
  induction fuel with
  | zero =>
      intro c tr it h
      exact absurd h (by simp [sessionLoop, sessionFinish])
  | succ n ih =>
      intro c tr it h
      simp only [sessionLoop] at h ⊢
      split_ifs at h ⊢ with h1 h2 h3 h4
      · exact absurd h (by simp [sessionFinish])
      · exact ⟨rfl, rfl, rfl⟩
      · exact absurd h (by simp [sessionFinish])
      · exact ⟨rfl, rfl, rfl⟩
      · exact ih _ _ _ h

theorem sessionLoop_trace_ext (env : Env) (ic : Nat) (snap : Str) :
    ∀ (fuel : Nat) (c : Str) (tr : List Ev) (it : Nat),
      ∃ r, (sessionLoop env ic snap fuel c tr it).trace = tr ++ r := by
  intro fuel
  induction fuel with
  | zero =>
      intro c tr it
      exact ⟨[Ev.measure, Ev.removeEv], rfl⟩
  | succ n ih =>
      intro c tr it
      simp only [sessionLoop]
      split_ifs
      · exact ⟨[Ev.measure] ++ [Ev.measure, Ev.removeEv], by
          simp [sessionFinish]⟩
      · exact ⟨[Ev.measure] ++ [Ev.restoreEv], by simp [sessionRevert]⟩
      · exact ⟨[Ev.measure, Ev.fixEv] ++ [Ev.measure, Ev.removeEv], by
          simp [sessionFinish]⟩
      · exact ⟨[Ev.measure, Ev.fixEv, Ev.writeEv, Ev.measure] ++
          [Ev.restoreEv], by simp [sessionRevert]⟩
      · obtain ⟨r, hr⟩ := ih ((env.fix c (env.errs c)).1)
          (tr ++ [Ev.measure, Ev.fixEv, Ev.writeEv, Ev.measure]) (it+1)
        exact ⟨[Ev.measure, Ev.fixEv, Ev.writeEv, Ev.measure] ++ r, by
          rw [hr]; simp⟩

theorem sessionLoop_trace_head (env : Env) (ic : Nat) (snap : Str)
    (fuel : Nat) (c : Str) (tr : List Ev) (it : Nat) (hf : fuel ≠ 0) :
    ∃ r, (sessionLoop env ic snap fuel c tr it).trace =
      tr ++ Ev.measure :: r := by
  cases fuel with
  | zero => exact absurd rfl hf
  | succ n =>
      simp only [sessionLoop]
      split_ifs
      · exact ⟨[Ev.measure, Ev.removeEv], by simp [sessionFinish]⟩
      · exact ⟨[Ev.restoreEv], by simp [sessionRevert]⟩
      · exact ⟨[Ev.fixEv, Ev.measure, Ev.removeEv], by simp [sessionFinish]⟩
      · exact ⟨[Ev.fixEv, Ev.writeEv, Ev.measure, Ev.restoreEv], by
          simp [sessionRevert]⟩
      · obtain ⟨r, hr⟩ := sessionLoop_trace_ext env ic snap n
          ((env.fix c (env.errs c)).1)
          (tr ++ [Ev.measure, Ev.fixEv, Ev.writeEv, Ev.measure]) (it+1)
        exact ⟨[Ev.fixEv, Ev.writeEv, Ev.measure] ++ r, by rw [hr]; simp⟩

/-! ## Claims about the controller -/

/-- Claim C1: no-regression invariant.  For every file content and every
rule table, running clean_file_automatically to completion leaves both the
reported final count and the true diagnostic count of the final content at
or below the initial count. -/
theorem no_regression_invariant (env : Env) (c : Str) :
    (clean_file_automatically env c).finalCount ≤
      (clean_file_automatically env c).initialCount ∧
    (env.errs (clean_file_automatically env c).content).length ≤
      (env.errs c).length := by
  unfold clean_file_automatically
  split_ifs with h
  · exact ⟨le_refl 0, le_refl _⟩
  · have hmain := sessionLoop_counts env ((env.errs c).length) c rfl
      maxIterations c [Ev.measure, Ev.backupEv] 0 (le_refl _)
    refine ⟨?_, hmain.2.1⟩
    rw [hmain.2.2]
    exact hmain.1

/-- Claim C2: revert correctness.  Whenever a session ends through the
regression check (either a current count above initial_count at the start
of an iteration, or a post-fix count above the pre-fix count), the file
content is restored byte for byte to the pre-session content and the
session returns the pair (initial_count, initial_count). -/
theorem revert_correctness (env : Env) (c : Str)
    (h : (clean_file_automatically env c).reverted = true) :
    (clean_file_automatically env c).content = c ∧
    (clean_file_automatically env c).finalCount =
      (clean_file_automatically env c).initialCount ∧
    (clean_file_automatically env c).initialCount =
      (env.errs c).length := by
  by_cases h0 : (env.errs c).length = 0
  · rw [clean_file_automatically, if_pos h0] at h
    exact Bool.noConfusion h
  · have he : clean_file_automatically env c =
        sessionLoop env ((env.errs c).length) c maxIterations c
          [Ev.measure, Ev.backupEv] 0 := by
      rw [clean_file_automatically, if_neg h0]
    rw [he] at h ⊢
    have hrev := sessionLoop_revert env ((env.errs c).length) c
      maxIterations c [Ev.measure, Ev.backupEv] 0 h
    exact ⟨hrev.1, hrev.2.1.trans hrev.2.2.symm, hrev.2.2⟩

/-- An environment whose rewrite makes the file strictly worse within one
iteration, forcing the post-fix regression revert. -/
def envRegress : Env :=
  { errs := fun s =>
      if s = "a".data then [⟨"f.ts".data, 1, 1, msgParsing, []⟩]
      else [⟨"f.ts".data, 1, 1, msgParsing, []⟩,
            ⟨"f.ts".data, 2, 1, msgParsing, []⟩],
    fix := fun _ _ => ("b".data, true) }

theorem revert_correctness_witness :
    (clean_file_automatically envRegress "a".data).reverted = true ∧
    (clean_file_automatically envRegress "a".data).content = "a".data ∧
    (clean_file_automatically envRegress "a".data).finalCount =
      (clean_file_automatically envRegress "a".data).initialCount := by
  have h : (clean_file_automatically envRegress "a".data).reverted =
      true := by decide
  have hmain := revert_correctness envRegress "a".data h
  exact ⟨h, hmain.1, hmain.2.1⟩

/-- Claim C3: termination.  For every file content and every rule table,
including one that cycles between two contents, the repair loop executes
at most max_iterations iterations. -/
theorem loop_terminates_within_max_iterations (env : Env) (c : Str) :
    (clean_file_automatically env c).iterations ≤ maxIterations := by
  unfold clean_file_automatically
  split_ifs with h
  · exact Nat.zero_le _
  · simpa using sessionLoop_iter_bound env ((env.errs c).length) c
      maxIterations c [Ev.measure, Ev.backupEv] 0

/-- Claim C4: clean-file no-op.  When the initial measurement reports zero
diagnostics the session returns (0, 0) immediately, the content is byte
for byte unchanged, and the trace shows a single measurement: no backup is
created and no write occurs. -/
theorem clean_file_noop (env : Env) (c : Str)
    (h : (env.errs c).length = 0) :
    clean_file_automatically env c =
      ⟨0, 0, c, [Ev.measure], 0, false⟩ ∧
    Ev.backupEv ∉ (clean_file_automatically env c).trace ∧
    Ev.writeEv ∉ (clean_file_automatically env c).trace := by
  have he : clean_file_automatically env c =
      ⟨0, 0, c, [Ev.measure], 0, false⟩ := by
    unfold clean_file_automatically
    rw [if_pos h]
  refine ⟨he, ?_, ?_⟩ <;> rw [he] <;>
    exact fun hm => Ev.noConfusion (List.mem_singleton.mp hm)

/-- An environment reporting a clean file. -/
def envClean : Env :=
  { errs := fun _ => [], fix := fun s _ => (s, false) }

theorem clean_file_noop_witness :
    clean_file_automatically envClean "x".data =
      ⟨0, 0, "x".data, [Ev.measure], 0, false⟩ ∧
    Ev.backupEv ∉ (clean_file_automatically envClean "x".data).trace ∧
    Ev.writeEv ∉ (clean_file_automatically envClean "x".data).trace :=
  clean_file_noop envClean "x".data rfl

/-! ## Claim C8: measurement count in the first iteration -/

/-- Adapter invocations recorded before the first call of the Rewrite
Engine. -/
def measuresBeforeFix (tr : List Ev) : Nat :=
  (tr.takeWhile fun e => decide (e ≠ Ev.fixEv)).count Ev.measure

/-- An environment with one stable diagnostic and a rule table that never
matches, so the session enters the loop and stops during iteration one. -/
def envOneIter : Env :=
  { errs := fun _ => [⟨"f.ts".data, 1, 1, msgParsing, []⟩],
    fix := fun s _ => (s, false) }

/-- Claim C8 counterexample: the claim predicts exactly one measurement
before the rewrite step of a session that stops during iteration one, but
the code re-invokes the adapter at the top of the first loop iteration, so
two measurements precede the rewrite step. -/
theorem first_iteration_remeasures_cex :
    measuresBeforeFix (clean_file_automatically envOneIter "x".data).trace
      ≠ 1 ∧
    measuresBeforeFix (clean_file_automatically envOneIter "x".data).trace
      = 2 := by decide

/-- Claim C8 as amended: every loop iteration, the first included,
re-invokes the Adapter; a session that enters the loop performs a
measurement, the backup, and a second measurement before anything else. -/
theorem first_iteration_remeasures (env : Env) (c : Str)
    (h : (env.errs c).length ≠ 0) :
    (clean_file_automatically env c).trace.take 3 =
      [Ev.measure, Ev.backupEv, Ev.measure] := by
  unfold clean_file_automatically
  rw [if_neg h]
  obtain ⟨r, hr⟩ := sessionLoop_trace_head env ((env.errs c).length) c
    maxIterations c [Ev.measure, Ev.backupEv] 0 (by decide)
  rw [hr]
  rfl

theorem first_iteration_remeasures_witness :
    (clean_file_automatically envOneIter "x".data).trace.take 3 =
      [Ev.measure, Ev.backupEv, Ev.measure] :=
  first_iteration_remeasures envOneIter "x".data (by decide)

/-! ## Claim C5: idempotence of the rewrite step -/

theorem genStep_id (c : Str) (b : Bool) (r : Rule)
    (h : gsub r.pat r.rep c = c) : genStep (c, b) r = (c, b) := by
  unfold genStep
  rw [h]
  simp

theorem apply_parsing_fixes_nochange (errors : List ESLintError) (c : Str)
    (h1 : lineFixes errors (splitKeepNl c) =
      Except.ok (splitKeepNl c, false))
    (h2 : ∀ r ∈ parsing_fixes, gsub r.pat r.rep c = c) :
    apply_parsing_fixes errors c = ⟨c, false, 0⟩ := by
  have hf : parsing_fixes.foldl genStep ((splitKeepNl c).flatten, false) =
      (c, false) := by
    rw [splitKeepNl_join]
    exact foldl_fixed genStep (c, false) parsing_fixes
      fun r hr => genStep_id c false r (h2 r hr)
  unfold apply_parsing_fixes
  rw [h1]
  simp only [hf]
  rfl

/-- Claim C5: rewrite-engine idempotence.  On content that no rule changes
any further (neither a message-targeted line fix nor any entry of the
parsing_fixes table), apply_parsing_fixes reports changed = false and
leaves the content unchanged, so a repeated call after a first call that
reached such a fixed point is a no-op. -/
theorem rewrite_engine_idempotent (errors : List ESLintError) (c : Str)
    (h1 : lineFixes errors (splitKeepNl c) =
      Except.ok (splitKeepNl c, false))
    (h2 : ∀ r ∈ parsing_fixes, gsub r.pat r.rep c = c) :
    (apply_parsing_fixes errors c).ret = false ∧
    (apply_parsing_fixes errors c).content = c := by
  rw [apply_parsing_fixes_nochange errors c h1 h2]
  exact ⟨rfl, rfl⟩

theorem rewrite_engine_idempotent_witness :
    (apply_parsing_fixes [] "async () => \x7b\n".data).ret = false ∧
    (apply_parsing_fixes [] "async () => \x7b\n".data).content =
      "async () => \x7b\n".data :=
  rewrite_engine_idempotent [] "async () => \x7b\n".data rfl (by decide)

/-! ## eslint-automation.py: data model and rewrite functions -/

/-- The LintError dataclass of eslint-automation.py. -/
structure LintError where
  file_path : Str
  line : Int
  column : Int
  rule : Str
  message : Str
  severity : Str
deriving DecidableEq

/-- One entry of the self.common_fixes table: a pattern and a fix taking
one match (matched text, capture group) and the whole content. -/
structure CRule where
  pat : List RItem
  fixup : Str × Str → Str → Str

/-- Pattern async word brace, without a capture group. -/
def pAsyncWordPlain : List RItem :=
  lits "async " ++ [RItem.plus CClass.word] ++ lits " \x7b"

/-- Pattern of the third common fix. -/
def pPromiseArrowPlain : List RItem :=
  lits "): Promise<" ++
    [RItem.plus (CClass.nset ['>']), RItem.ch (CClass.lit '>'),
     RItem.star CClass.space] ++
    lits "=>" ++ [RItem.star CClass.space, RItem.ch (CClass.lit '\x7b')]

/-- Pattern of the fourth common fix. -/
def pPromiseBody : List RItem :=
  lits "): Promise<" ++ [RItem.star CClass.space] ++ lits "=>" ++
    [RItem.star CClass.space, RItem.ch (CClass.lit '\x7b'),
     RItem.gstart, RItem.plus (CClass.nset ['\x7d']), RItem.gend,
     RItem.ch (CClass.lit '\x7d'), RItem.ch (CClass.lit '>'),
     RItem.star CClass.space, RItem.ch (CClass.lit '\x7b')]

/-- The self.common_fixes table (eslint-automation.py, lines 28 to 39), in
source order.  Each fix mirrors the source lambda, whose str.replace works
on the whole content. -/
def common_fixes : List CRule :=
  [ ⟨lits "\x7d catch () \x7b",
      fun _ c => replAll "\x7d catch () \x7b".data
        "\x7d catch (error) \x7b".data c⟩,
    ⟨pAsyncWordPlain,
      fun m c => replAll m.1 (replAll " \x7b".data " => \x7b".data m.1) c⟩,
    ⟨pPromiseArrowPlain,
      fun _ c => replAll " => \x7b".data " \x7b".data c⟩,
    ⟨pPromiseBody,
      fun m c => replAll m.1
        ("): Promise<\x7b".data ++ m.2 ++ "\x7d> \x7b".data) c⟩,
    ⟨lits ": any" ++ [RItem.bnd],
      fun _ c => replAll ": any".data ": unknown".data c⟩,
    ⟨lits " as any" ++ [RItem.bnd],
      fun _ c => replAll " as any".data " as unknown".data c⟩,
    ⟨lits "=> any" ++ [RItem.bnd],
      fun _ c => replAll "=> any".data "=> unknown".data c⟩ ]

/-- One pattern step of apply_common_fixes (lines 153 to 158): collect the
matches once, then apply the fix once per match, in reversed order. -/
def cStep (c : Str) (r : CRule) : Str :=
  if (findAll r.pat c).isEmpty then c
  else ((findAll r.pat c).reverse).foldl (fun acc m => r.fixup m acc) c

/-- ESLintAutomation.apply_common_fixes (eslint-automation.py, lines 144 to
164).  A read failure and an empty file are both falsy in the source and
return False with no write; otherwise the table runs and the file is
written only when the content changed. -/
def apply_common_fixes (content : Str) : ApplyResult :=
  if content = [] then ⟨content, false, 0⟩
  else if common_fixes.foldl cStep content ≠ content then
    ⟨common_fixes.foldl cStep content, true, 1⟩
  else ⟨content, false, 0⟩

/-- Pattern (async word) brace, capture group around async word. -/
def pAsyncWordGrp : List RItem :=
  [RItem.gstart] ++ lits "async " ++ [RItem.plus CClass.word, RItem.gend] ++
    lits " \x7b"

/-- Pattern of the malformed-Promise line fix of fix_parsing_errors. -/
def pPromiseCurly : List RItem :=
  lits "Promise<" ++ [RItem.star CClass.space] ++ lits "=>" ++
    [RItem.star CClass.space, RItem.ch (CClass.lit '\x7b'),
     RItem.gstart, RItem.plus (CClass.nset ['\x7d']), RItem.gend,
     RItem.ch (CClass.lit '\x7d'), RItem.ch (CClass.lit '>')]

/-- The per-line fixes of fix_parsing_errors (eslint-automation.py, lines
184 to 207), dispatching on the diagnostic message. -/
def autoLineFix (msg line : Str) : Str :=
  if strHas msg msgBraceSemiExpected then
    if strHas line " => \x7b".data then
      replAll " => \x7b".data " \x7b".data line
    else line
  else if strHas msg msgArrowExpected then
    if (findAll pAsyncWordGrp line).isEmpty = false then
      gsub pAsyncWordGrp (fun _ g1 => g1 ++ " => \x7b".data) line
    else line
  else if strHas msg msgGtExpected then
    if strHas line "Promise< =>".data then
      gsub pPromiseCurly
        (fun _ g1 => "Promise<\x7b".data ++ g1 ++ "\x7d>".data) line
    else line
  else if strHas msg msgIdentExpected then
    if strHas line "\x7d catch () \x7b".data then
      replAll "\x7d catch () \x7b".data "\x7d catch (error) \x7b".data line
    else line
  else line

/-- One step of the per-error loop of fix_parsing_errors (lines 179 to
207): the guard 0 <= line_idx < len(lines) protects the list access; an
access outside the range would raise, modelled by the error case. -/
def fixStepE (lines : List Str) (e : LintError) :
    Except Unit (List Str) :=
  if 0 ≤ e.line - 1 ∧ e.line - 1 < (lines.length : Int) then
    match lines.get? (e.line - 1).toNat with
    | none => Except.error ()
    | some l =>
        Except.ok (lines.set (e.line - 1).toNat (autoLineFix e.message l))
  else Except.ok lines

/-- ESLintAutomation.fix_parsing_errors (eslint-automation.py, lines 166
to 214): filter the parsing errors, bail out when there are none or when
the file cannot be read or is empty, apply the per-line fixes, and write
back only when the joined content changed. -/
def fix_parsing_errors (errors : List LintError) (content : Str) :
    Except Unit ApplyResult :=
  if (errors.filter fun e => strHas e.message msgParsing).isEmpty then
    Except.ok ⟨content, false, 0⟩
  else if content = [] then Except.ok ⟨content, false, 0⟩
  else
    match (errors.filter fun e => strHas e.message msgParsing).foldlM
        fixStepE (splitOnNl content) with
    | Except.error u => Except.error u
    | Except.ok ls =>
        if joinNl ls ≠ content then Except.ok ⟨joinNl ls, true, 1⟩
        else Except.ok ⟨content, false, 0⟩

/-! ## Claim C9: no write when no rule matches -/

theorem apply_common_fixes_nochange (c : Str)
    (h : ∀ r ∈ common_fixes, cStep c r = c) :
    apply_common_fixes c = ⟨c, false, 0⟩ := by
  unfold apply_common_fixes
  have hc : common_fixes.foldl cStep c = c := foldl_fixed cStep c _ h
  split_ifs with h0 h1
  · rfl
  · exact absurd hc h1
  · rfl

/-- Claim C9: when neither a message-targeted line fix nor any pattern of
the general rule tables changes the content, apply_parsing_fixes and
apply_common_fixes both return False, perform no file write, and leave the
on-disk content byte-identical. -/
theorem no_write_when_no_rule_matches (errors : List ESLintError) (c : Str)
    (h1 : lineFixes errors (splitKeepNl c) =
      Except.ok (splitKeepNl c, false))
    (h2 : ∀ r ∈ parsing_fixes, gsub r.pat r.rep c = c)
    (h3 : ∀ r ∈ common_fixes, cStep c r = c) :
    (apply_parsing_fixes errors c).writes = 0 ∧
    (apply_parsing_fixes errors c).ret = false ∧
    (apply_parsing_fixes errors c).content = c ∧
    (apply_common_fixes c).writes = 0 ∧
    (apply_common_fixes c).ret = false ∧
    (apply_common_fixes c).content = c := by
  rw [apply_parsing_fixes_nochange errors c h1 h2,
    apply_common_fixes_nochange c h3]
  exact ⟨rfl, rfl, rfl, rfl, rfl, rfl⟩

theorem no_write_when_no_rule_matches_witness :
    (apply_parsing_fixes [] "const x = 1;\n".data).writes = 0 ∧
    (apply_parsing_fixes [] "const x = 1;\n".data).ret = false ∧
    (apply_parsing_fixes [] "const x = 1;\n".data).content =
      "const x = 1;\n".data ∧
    (apply_common_fixes "const x = 1;\n".data).writes = 0 ∧
    (apply_common_fixes "const x = 1;\n".data).ret = false ∧
    (apply_common_fixes "const x = 1;\n".data).content =
      "const x = 1;\n".data :=
  no_write_when_no_rule_matches [] "const x = 1;\n".data rfl
    (by decide) (by decide)

/-! ## Claim C10: out-of-range diagnostic lines are skipped safely -/

def exOk {ε α : Type} : Except ε α → Bool
  | Except.ok _ => true
  | Except.error _ => false

/-- Claim C10: a diagnostic whose line lies outside 1..len(lines) passes
the guard untouched, so the per-error step of fix_parsing_errors changes
nothing and raises no indexing error; moreover the step never raises on
any input, because the guard keeps every performed access in bounds. -/
theorem out_of_range_line_skipped (lines : List Str) (e : LintError)
    (h : e.line < 1 ∨ (lines.length : Int) < e.line) :
    fixStepE lines e = Except.ok lines ∧
    ∀ (ls : List Str) (e2 : LintError), exOk (fixStepE ls e2) = true := by
  constructor
  · unfold fixStepE
    rw [if_neg (by omega)]
  · intro ls e2
    unfold fixStepE
    split_ifs with hg
    · have hlt : (e2.line - 1).toNat < ls.length := by omega
      rw [List.get?_eq_get hlt]
      rfl
    · rfl

theorem out_of_range_line_skipped_witness :
    fixStepE ["let y;".data] ⟨[], 5, 1, [], msgParsing, []⟩ =
      Except.ok ["let y;".data] ∧
    ∀ (ls : List Str) (e2 : LintError), exOk (fixStepE ls e2) = true :=
  out_of_range_line_skipped ["let y;".data] ⟨[], 5, 1, [], msgParsing, []⟩
    (Or.inr (by decide))

/-! ## Claim C7: the Diagnostic Adapter (ESLintHelper.get_file_errors) -/

def digitsToNat (ds : Str) : Nat :=
  ds.foldl (fun n c => n * 10 + (c.toNat - 48)) 0

structure ParsedLine where
  ln : Nat
  col : Nat
  sev : Str
  msg : Str
deriving DecidableEq

/-- The anchored error-line pattern of get_file_errors (eslint-helper.py,
line 102): optional spaces, digits, a colon, digits, spaces, the severity
word, spaces, and a non-empty message.  When the tail after the severity
is all whitespace, the message keeps exactly its last character, matching
the backtracking of the greedy one-or-more whitespace against the final
one-or-more dot. -/
def parseErrorLine (l : Str) : Option ParsedLine :=
  let r0 := l.dropWhile isSpaceChar
  let ds1 := r0.takeWhile Char.isDigit
  if ds1.isEmpty then none
  else
    match r0.drop ds1.length with
    | ':' :: r2 =>
        let ds2 := r2.takeWhile Char.isDigit
        if ds2.isEmpty then none
        else
          let r3 := r2.drop ds2.length
          let sp1 := r3.takeWhile isSpaceChar
          if sp1.isEmpty then none
          else
            let r4 := r3.drop sp1.length
            let sevRest : Option (Str × Str) :=
              if "error".data.isPrefixOf r4 then
                some ("error".data, r4.drop 5)
              else if "warning".data.isPrefixOf r4 then
                some ("warning".data, r4.drop 7)
              else none
            match sevRest with
            | none => none
            | some (sev, r5) =>
                let sp2 := r5.takeWhile isSpaceChar
                let r6 := r5.drop sp2.length
                if sp2.isEmpty then none
                else if r6.isEmpty = false then
                  some ⟨digitsToNat ds1, digitsToNat ds2, sev, r6⟩
                else if 2 ≤ sp2.length then
                  some ⟨digitsToNat ds1, digitsToNat ds2, sev, [' ']⟩
                else none
    | _ => none

def ruleChar (c : Char) : Bool :=
  c.isLower || c = '-' || c = '/' || c = '@'

/-- The rule-extraction branch of get_file_errors (lines 110 to 115): when
the stripped message ends in a closing paren, search for a trailing run of
rule characters preceded by whitespace, strip the rule out of the message
and record it. -/
def headIsSpace : Str → Bool
  | c :: _ => isSpaceChar c
  | [] => false

def extractRule (msg : Str) : Str × Str :=
  if ")".data.isSuffixOf (pyStrip msg) then
    if (msg.reverse.takeWhile ruleChar).isEmpty = false ∧
        headIsSpace (msg.reverse.dropWhile ruleChar) = true then
      (pyStrip (replAll (msg.reverse.takeWhile ruleChar).reverse [] msg),
       (msg.reverse.takeWhile ruleChar).reverse)
    else (msg, [])
  else (msg, [])

/-- The output-parsing loop of get_file_errors (lines 95 to 117): a
stripped line ending in .ts becomes the current file; an error line is
recorded only once a current file exists. -/
def parseLintLines : List Str → Option Str → List ESLintError →
    List ESLintError
  | [], _, acc => acc.reverse
  | l :: ls, cur, acc =>
      if ".ts".data.isSuffixOf (pyStrip l) ∧
          (" ".data.isPrefixOf (pyStrip l)) = false then
        parseLintLines ls (some (pyStrip l)) acc
      else
        match parseErrorLine l, cur with
        | some pl, some cf =>
            parseLintLines ls cur
              (⟨cf, (pl.ln : Int), (pl.col : Int), (extractRule pl.msg).1,
                (extractRule pl.msg).2⟩ :: acc)
        | _, _ => parseLintLines ls cur acc

/-- Outcome of the subprocess invocation inside get_file_errors. -/
inductive SubprocOutcome where
  | completed (output : Str)
  | startFailure (msg : Str)
deriving DecidableEq

/-- ESLintHelper.get_file_errors (eslint-helper.py, lines 76 to 123).  The
whole body runs under a catch-all exception handler that prints and
returns the empty list, so the function returns normally on every
outcome; the Except result type records that no exception escapes. -/
def get_file_errors (r : SubprocOutcome) :
    Except Str (List ESLintError) :=
  match r with
  | SubprocOutcome.completed out =>
      Except.ok (parseLintLines (splitOnNl out) none [])
  | SubprocOutcome.startFailure _ => Except.ok []

/-- Claim C7 counterexample: when the external checker process cannot be
started at all, the claim requires get_file_errors to raise, but the code
catches the failure and returns the empty list as a normal result. -/
theorem adapter_raises_on_start_failure_cex :
    get_file_errors
        (SubprocOutcome.startFailure "spawn npm ENOENT".data) =
      Except.ok [] := by
  rfl

/-- A realistic output of a checker run that reports zero problems. -/
def cleanRunOutput : Str :=
  "\n> jarvis-chat@0.0.0 lint\n> eslint .\n\n".data

/-- Claim C7 as amended: the measurement operation never raises.  On any
failure, the inability to start the checker included, it returns the
empty diagnostic list, and a checker run reporting zero problems also
yields the empty list. -/
theorem adapter_never_raises :
    (∀ r : SubprocOutcome, exOk (get_file_errors r) = true) ∧
    (∀ m : Str, get_file_errors (SubprocOutcome.startFailure m) =
      Except.ok []) ∧
    get_file_errors (SubprocOutcome.completed cleanRunOutput) =
      Except.ok [] := by
  refine ⟨fun r => ?_, fun m => rfl, rfl⟩
  cases r <;> rfl

/-! ## Claim C6: internal faults during a session

In the source, every operation the claim names pre-handles its own
faults: get_file_errors catches every exception and returns the empty
list, and apply_parsing_fixes catches every exception and returns False.
The controller's own try/except (lines 311 to 317) therefore never sees a
measurement or mutation fault; and were an exception to reach it, it
would restore the backup and return (initial_count, initial_count)
normally instead of re-raising.  The model below injects faults at the
raw operation level, indexing adapter invocations so a fault can strike a
chosen call. -/

inductive Fault where
  | ioError
  | procError
deriving DecidableEq

structure EnvExc where
  errsRaw : Nat → Str → Except Fault (List ESLintError)
  fixRaw : Str → List ESLintError → Except Fault (Str × Bool)

/-- get_file_errors with a possible fault in invocation number k: the
catch-all handler converts any fault into the empty list. -/
def getFileErrorsExc (env : EnvExc) (k : Nat) (c : Str) :
    List ESLintError :=
  match env.errsRaw k c with
  | Except.ok l => l
  | Except.error _ => []

/-- apply_parsing_fixes with a possible fault: its handler converts any
fault into the pair (unchanged content, False). -/
def applyFixesExc (env : EnvExc) (c : Str) (es : List ESLintError) :
    Str × Bool :=
  match env.fixRaw c es with
  | Except.ok r => r
  | Except.error _ => (c, false)

/-- The while loop of clean_file_automatically under fault injection; k
numbers the adapter invocations performed so far. -/
def sessionLoopExc (env : EnvExc) (ic : Nat) (snap : Str) :
    Nat → Str → List Ev → Nat → Nat → SessionResult
  | 0, c, tr, it, k =>
      ⟨ic, (getFileErrorsExc env k c).length, c,
        tr ++ [Ev.measure, Ev.removeEv], it, false⟩
  | fuel+1, c, tr, it, k =>
      if (getFileErrorsExc env k c).length = 0 then
        ⟨ic, (getFileErrorsExc env (k+1) c).length, c,
          tr ++ [Ev.measure, Ev.measure, Ev.removeEv], it+1, false⟩
      else if ic < (getFileErrorsExc env k c).length then
        ⟨ic, ic, snap, tr ++ [Ev.measure, Ev.restoreEv], it+1, true⟩
      else if (applyFixesExc env c (getFileErrorsExc env k c)).2 = false then
        ⟨ic, (getFileErrorsExc env (k+1) c).length, c,
          tr ++ [Ev.measure, Ev.fixEv, Ev.measure, Ev.removeEv], it+1, false⟩
      else if (getFileErrorsExc env k c).length <
          (getFileErrorsExc env (k+1)
            (applyFixesExc env c (getFileErrorsExc env k c)).1).length then
        ⟨ic, ic, snap,
          tr ++ [Ev.measure, Ev.fixEv, Ev.writeEv, Ev.measure, Ev.restoreEv],
          it+1, true⟩
      else
        sessionLoopExc env ic snap fuel
          (applyFixesExc env c (getFileErrorsExc env k c)).1
          (tr ++ [Ev.measure, Ev.fixEv, Ev.writeEv, Ev.measure]) (it+1) (k+2)

/-- clean_file_automatically under fault injection.  The second component
is the exception escaping the session; the body runs inside try/except
Exception, and every inner operation already absorbs its own faults, so
no exception ever escapes. -/
def clean_file_exc (env : EnvExc) (content : Str) :
    SessionResult × Option Fault :=
  if (getFileErrorsExc env 0 content).length = 0 then
    (⟨0, 0, content, [Ev.measure], 0, false⟩, none)
  else
    (sessionLoopExc env ((getFileErrorsExc env 0 content).length) content
      maxIterations content [Ev.measure, Ev.backupEv] 0 1, none)

/-- An environment whose adapter faults from its third invocation on: the
session improves the file from two diagnostics to one in iteration one,
then the measurement fault strikes in iteration two. -/
def envFaulty : EnvExc :=
  { errsRaw := fun k c =>
      if k ≤ 2 then
        if c = "a".data then
          Except.ok [⟨"f.ts".data, 1, 1, msgParsing, []⟩,
            ⟨"f.ts".data, 2, 1, msgParsing, []⟩]
        else Except.ok [⟨"f.ts".data, 1, 1, msgParsing, []⟩]
      else Except.error Fault.ioError,
    fixRaw := fun _ _ => Except.ok ("b".data, true) }

/-- Claim C6 counterexample: a measurement fault after the snapshot.  The
claim requires the controller to restore the snapshot and propagate the
failure, but the adapter absorbs the fault into an empty list, so the
session keeps the mutated content, reports (2, 0), and returns normally
with no escaping exception. -/
theorem internal_fault_not_propagated_cex :
    (clean_file_exc envFaulty "a".data).2 = none ∧
    (clean_file_exc envFaulty "a".data).1.content = "b".data ∧
    (clean_file_exc envFaulty "a".data).1.content ≠ "a".data ∧
    (clean_file_exc envFaulty "a".data).1.initialCount = 2 ∧
    (clean_file_exc envFaulty "a".data).1.finalCount = 0 ∧
    (clean_file_exc envFaulty "a".data).1.reverted = false := by
  decide

/-- Claim C6 as amended: an unexpected failure during measurement is
absorbed by the adapter, which reports the empty diagnostic list, and no
failure ever propagates out of a session; faults are fatal to nothing and
are never surfaced to the caller as exceptions. -/
theorem internal_fault_absorbed (env : EnvExc) (c : Str) (k : Nat)
    (f : Fault) (h : env.errsRaw k c = Except.error f) :
    getFileErrorsExc env k c = [] ∧
    (clean_file_exc env c).2 = none := by
  constructor
  · unfold getFileErrorsExc
    rw [h]
  · unfold clean_file_exc
    split_ifs <;> rfl

theorem internal_fault_absorbed_witness :
    getFileErrorsExc envFaulty 3 "a".data = [] ∧
    (clean_file_exc envFaulty "a".data).2 = none :=
  internal_fault_absorbed envFaulty "a".data 3 Fault.ioError rfl
